import Mathlib

/-!
Verification of the ATX-DB core (`activation/atxdb.go`) of go-spacemesh.

The Go code is shallowly embedded: the byte-keyed `database.DB` instances
behind the `ActivationDb` are split into their disjoint logical key spaces
(ATX bodies, NIPST blobs, per-node last-ATX pointers, per-epoch counters,
the positioning-ATX record), machine integers become `Nat` with an explicit
`% 2 ^ 32` where the Go code does `uint32` arithmetic, and fallible
operations return `Except`.  External collaborators that live outside the
provided source (the `types` package helpers, the identity store, the mesh
traversal adapter and the NIPST validator) are modelled from the spec and
marked as such.
-/

namespace Activation

/-- Database-level errors surfaced by the byte-keyed store: a missing key
(`database.ErrNotFound`) or any other failure (I/O, codec, the rejection of
the empty ATX id by `GetAtx`). -/
inductive DBError where
  | notFound
  | other
  deriving DecidableEq

/-- Modelled from the spec: `types.AtxId` is a 32-byte content hash; it is
modelled as an opaque `Nat` identifier, with `0` standing for
`types.EmptyAtxId`. -/
def emptyAtxId : Nat := 0

/-- Modelled from the spec: the fields of `types.ActivationTx` that the
ATX-DB core reads.  `id` stands for the content hash `atx.Id()` (the hash
excludes the NIPST, so it is unchanged when the NIPST is detached), and the
NIPST blob is an opaque `Option Nat`. -/
structure ActivationTx where
  id : Nat
  nodeId : String
  sequence : Nat
  prevATXId : Nat
  positioningAtx : Nat
  pubLayerIdx : Nat
  startTick : Nat
  activeSetSize : Nat
  view : List Nat
  nipst : Option Nat
  deriving DecidableEq

/-- Modelled from the spec: the fields of `types.Block` read during the
active-set traversal: its layer and the ATX ids it references. -/
structure Block where
  id : Nat
  layerIndex : Nat
  atxIds : List Nat
  deriving DecidableEq

/-- Modelled from the spec: `types.LayerID.GetEpoch`, per-epoch grouping by
integer division (`epoch(L) = L / LAYERS_PER_EPOCH`). -/
def getEpoch (layer layersPerEpoch : Nat) : Nat := layer / layersPerEpoch

/-- Modelled from the spec: `types.ActivationTx.TargetEpoch`, the
publication epoch plus one. -/
def targetEpoch (a : ActivationTx) (layersPerEpoch : Nat) : Nat :=
  getEpoch a.pubLayerIdx layersPerEpoch + 1

/-- Modelled from the spec: `types.EpochId.IsGenesis`; the spec designates
epoch 0 as the (special-cased) genesis epoch. -/
def isGenesis (epoch : Nat) : Bool := epoch == 0

/-- Association-list lookup, standing for a `get` on the byte-keyed store
restricted to one logical key space. -/
def lookupA {α : Type} : List (Nat × α) → Nat → Option α
  | [], _ => none
  | (k2, v) :: rest, k => if k2 = k then some v else lookupA rest k

/-- Association-list overwrite-or-append, standing for a `put` on the
byte-keyed store restricted to one logical key space. -/
def putA {α : Type} : List (Nat × α) → Nat → α → List (Nat × α)
  | [], k, v => [(k, v)]
  | (k2, v2) :: rest, k, v =>
      if k2 = k then (k, v) :: rest else (k2, v2) :: putA rest k v

/-- Pointwise update of a function-backed table, standing for a `put` under
a string or numeric key. -/
def updF {α β : Type} [DecidableEq α] (f : α → Option β) (k : α) (v : β) :
    α → Option β :=
  fun x => if x = k then some v else f x

/-- State of the `ActivationDb`, with the shared byte-keyed store split into
its disjoint reserved key spaces (spec section 4.2).  `meshBlocks` is the
mesh traversal adapter (modelled from the spec: it yields every block
reachable from the view whose layer is at least the start layer),
`nipstValidator` the external NIPST validator, `identities` the identity
store, and `activesetCache` the view-hash-keyed active-set cache (the hash
of the encoded view is modelled injectively by the view itself). -/
structure ActivationDb where
  layersPerEpoch : Nat
  atxs : List (Nat × ActivationTx)
  nipsts : Nat → Option (Option Nat)
  lastAtx : String → Option Nat
  epochCounter : Nat → Option Nat
  posAtx : Option (Nat × Nat)
  identities : String → Option String
  activesetCache : List Nat → Option Nat
  meshBlocks : List Nat → Nat → List Block
  nipstValidator : Option Nat → String × Nat × Nat × Nat × Nat × Nat → Bool

/-- GetAtx (atxdb.go): rejects the empty id with a generic error, then looks
the body up in the store.  The 350-entry LRU cache of decoded ATXs is a
read-through cache of immutable records and is elided; codec failures
cannot arise in the model. -/
def getAtx (db : ActivationDb) (id : Nat) : Except DBError ActivationTx :=
  if id = emptyAtxId then .error .other
  else
    match lookupA db.atxs id with
    | some a => .ok a
    | none => .error .notFound

/-- GetNodeLastAtxId (atxdb.go): read the last ATX id recorded under the
node key. -/
def getNodeLastAtxId (db : ActivationDb) (nodeId : String) :
    Except DBError Nat :=
  match db.lastAtx nodeId with
  | some id => .ok id
  | none => .error .notFound

/-- Errors of ContextuallyValidateAtx, one constructor per `return` site of
the Go function. -/
inductive CtxError where
  | prevFetchFailed
  | prevNotReferenced
  | lastFetchFailed
  | doubleFirst
  deriving DecidableEq

/-- ContextuallyValidateAtx (atxdb.go): the previous ATX referenced must be
the last known ATX for the miner, and a first ATX requires that no ATX is
known for the miner. -/
def ContextuallyValidateAtx (db : ActivationDb) (atx : ActivationTx) :
    Except CtxError Unit :=
  if atx.prevATXId ≠ emptyAtxId then
    match getNodeLastAtxId db atx.nodeId with
    | .error _ => .error .prevFetchFailed
    | .ok lastAtx =>
        if lastAtx ≠ atx.prevATXId then .error .prevNotReferenced
        else .ok ()
  else
    match getNodeLastAtxId db atx.nodeId with
    | .error e => if e ≠ .notFound then .error .lastFetchFailed else .ok ()
    | .ok _ => .error .doubleFirst

/-- Errors of CalcActiveSetFromView: a publication epoch below 1, or the
inconsistent-state condition (a traversed block references an ATX the store
does not hold; the Go code panics there and the enclosing traversal
surfaces an error). -/
inductive CalcError where
  | genesisActiveSetUndefined
  | inconsistentState
  deriving DecidableEq

/-- Inner loop of the traversal callback of CalcActiveSetFromView: walk the
ATX ids of one block, deduplicating through the `seen` set, fetching each
new id and counting those whose target epoch is the publication epoch.  The
`uint32` counter wraps modulo `2 ^ 32`. -/
def visitIds (db : ActivationDb) (pubEpoch : Nat) :
    List Nat → List Nat → Nat → Except CalcError (List Nat × Nat)
  | [], seen, counter => .ok (seen, counter)
  | id :: rest, seen, counter =>
      if id ∈ seen then visitIds db pubEpoch rest seen counter
      else
        match getAtx db id with
        | .error _ => .error .inconsistentState
        | .ok atx =>
            if targetEpoch atx db.layersPerEpoch ≠ pubEpoch then
              visitIds db pubEpoch rest (id :: seen) counter
            else
              visitIds db pubEpoch rest (id :: seen) ((counter + 1) % 2 ^ 32)

/-- Outer loop of CalcActiveSetFromView over the blocks delivered by the
mesh traversal adapter: blocks outside the counting epoch are skipped, the
others contribute their ATX ids through `visitIds`. -/
def visitBlocks (db : ActivationDb) (pubEpoch countingEpoch : Nat) :
    List Block → List Nat → Nat → Except CalcError (List Nat × Nat)
  | [], seen, counter => .ok (seen, counter)
  | blk :: rest, seen, counter =>
      if getEpoch blk.layerIndex db.layersPerEpoch ≠ countingEpoch then
        visitBlocks db pubEpoch countingEpoch rest seen counter
      else
        match visitIds db pubEpoch blk.atxIds seen counter with
        | .error e => .error e
        | .ok (seen2, counter2) =>
            visitBlocks db pubEpoch countingEpoch rest seen2 counter2

/-- CalcActiveSetFromView (atxdb.go): consult the view-hash cache first; on
a miss require a non-genesis publication epoch, traverse the view counting
distinct previous-epoch ATX ids that target the publication epoch, and
write the result back into the cache.  The returned pair carries the
updated cache state (a process-global side effect in the Go code). -/
def CalcActiveSetFromView (db : ActivationDb) (a : ActivationTx) :
    Except CalcError (Nat × ActivationDb) :=
  match db.activesetCache a.view with
  | some count => .ok (count, db)
  | none =>
      let pubEpoch := getEpoch a.pubLayerIdx db.layersPerEpoch
      if pubEpoch < 1 then .error .genesisActiveSetUndefined
      else
        let countingEpoch := pubEpoch - 1
        let firstLayerOfLastEpoch := countingEpoch * db.layersPerEpoch
        match
          visitBlocks db pubEpoch countingEpoch
            (db.meshBlocks a.view firstLayerOfLastEpoch) [] 0 with
        | .error e => .error e
        | .ok (_, counter) =>
            .ok (counter,
              { db with
                activesetCache :=
                  fun v => if v = a.view then some counter
                    else db.activesetCache v })

/-- Count of the result of a CalcActiveSetFromView call, with the updated
cache state projected away (the Go caller observes only the count and the
error). -/
def calcResultCount (r : Except CalcError (Nat × ActivationDb)) :
    Option Nat :=
  match r with
  | .ok (c, _) => some c
  | .error _ => none

/-- Errors of SyntacticallyValidateAtx, one constructor per `return` site of
the Go function, named after the spec's error taxonomy. -/
inductive SynError where
  | prevAtxNotFound
  | prevAtxIdentityMismatch
  | sequenceNotMonotonic
  | nonZeroSequenceWithoutPrev
  | posAtxNotFound
  | posAtxNotBefore
  | posAtxTooOld
  | missingPosAtx
  | activeSetCalcFailed
  | activeSetMismatch
  | nipstInvalid
  deriving DecidableEq

/-- Previous-ATX block of SyntacticallyValidateAtx: a non-empty previous id
must resolve to an ATX of the same miner with the preceding sequence
number; an empty previous id forces sequence zero. -/
def validatePrevAtx (db : ActivationDb) (atx : ActivationTx) :
    Except SynError Unit :=
  if atx.prevATXId ≠ emptyAtxId then
    match getAtx db atx.prevATXId with
    | .error _ => .error .prevAtxNotFound
    | .ok prevATX =>
        if prevATX.nodeId ≠ atx.nodeId then .error .prevAtxIdentityMismatch
        else if prevATX.sequence + 1 ≠ atx.sequence then
          .error .sequenceNotMonotonic
        else .ok ()
  else if atx.sequence ≠ 0 then .error .nonZeroSequenceWithoutPrev
  else .ok ()

/-- Positioning-ATX block of SyntacticallyValidateAtx: a non-empty
positioning id must resolve to an ATX published strictly before, at most
one epoch of layers away; an empty positioning id is allowed only in a
genesis publication epoch. -/
def validatePosAtx (db : ActivationDb) (atx : ActivationTx) :
    Except SynError Unit :=
  if atx.positioningAtx ≠ emptyAtxId then
    match getAtx db atx.positioningAtx with
    | .error _ => .error .posAtxNotFound
    | .ok posAtx =>
        if atx.pubLayerIdx ≤ posAtx.pubLayerIdx then .error .posAtxNotBefore
        else if atx.pubLayerIdx - posAtx.pubLayerIdx > db.layersPerEpoch then
          .error .posAtxTooOld
        else .ok ()
  else if isGenesis (getEpoch atx.pubLayerIdx db.layersPerEpoch) then .ok ()
  else .error .missingPosAtx

/-- Modelled from the spec: the NIPST challenge of an ATX is the tuple of
`NodeId, SequenceNumber, PrevATXID, LayerID, StartTick, PositioningATX`;
its hash is modelled injectively by the tuple itself. -/
def nipstChallengeHash (a : ActivationTx) :
    String × Nat × Nat × Nat × Nat × Nat :=
  (a.nodeId, a.sequence, a.prevATXId, a.pubLayerIdx, a.startTick,
    a.positioningAtx)

/-- NIPST block of SyntacticallyValidateAtx: the external validator must
accept the proof against the challenge hash. -/
def validateNipst (db : ActivationDb) (atx : ActivationTx) :
    Except SynError Unit :=
  if db.nipstValidator atx.nipst (nipstChallengeHash atx) then .ok ()
  else .error .nipstInvalid

/-- SyntacticallyValidateAtx (atxdb.go): previous-ATX checks, positioning
checks, the active-set recount (whose failure is swallowed in a genesis
publication epoch, leaving the Go local `activeSet` at 0, so the equality
check against the declared size still runs), and NIPST validation. -/
def SyntacticallyValidateAtx (db : ActivationDb) (atx : ActivationTx) :
    Except SynError Unit :=
  match validatePrevAtx db atx with
  | .error e => .error e
  | .ok _ =>
      match validatePosAtx db atx with
      | .error e => .error e
      | .ok _ =>
          match CalcActiveSetFromView db atx with
          | .error _ =>
              if isGenesis (getEpoch atx.pubLayerIdx db.layersPerEpoch) then
                if atx.activeSetSize ≠ 0 then .error .activeSetMismatch
                else validateNipst db atx
              else .error .activeSetCalcFailed
          | .ok (activeSet, _) =>
              if atx.activeSetSize ≠ activeSet then .error .activeSetMismatch
              else validateNipst db atx

/-- The stored positioning-ATX record (`atxIdAndLayer` under the literal
key `posAtxKey`). -/
def getCurrentAtxIdAndLayer (db : ActivationDb) : Except DBError (Nat × Nat) :=
  match db.posAtx with
  | some p => .ok p
  | none => .error .notFound

/-- updatePosAtxIfNeeded (atxdb.go): keep the recorded positioning ATX when
its layer is at least the incoming ATX's publication layer, otherwise (or
when no record exists) overwrite it with the incoming ATX's id and layer.
A read failure other than not-found propagates. -/
def updatePosAtxIfNeeded (db : ActivationDb) (atx : ActivationTx) :
    Except DBError ActivationDb :=
  match getCurrentAtxIdAndLayer db with
  | .error e =>
      if e ≠ .notFound then .error e
      else .ok { db with posAtx := some (atx.id, atx.pubLayerIdx) }
  | .ok (_, layerId) =>
      if layerId ≥ atx.pubLayerIdx then .ok db
      else .ok { db with posAtx := some (atx.id, atx.pubLayerIdx) }

/-- storeAtxUnlocked (atxdb.go): write the NIPST blob under the ATX id,
detach the NIPST from the ATX, and write the ATX body. -/
def storeAtxUnlocked (db : ActivationDb) (atx : ActivationTx) :
    ActivationDb :=
  { db with
    nipsts := updF db.nipsts atx.id atx.nipst,
    atxs := putA db.atxs atx.id { atx with nipst := none } }

/-- Value written by incValidAtxCounter given the result of reading the
epoch counter key: any read failure (not only not-found) initializes the
counter to 1, otherwise the `uint32` value is incremented. -/
def nextCounterValue (r : Except DBError Nat) : Nat :=
  match r with
  | .error _ => 1
  | .ok v => (v + 1) % 2 ^ 32

/-- Read of the per-epoch counter key (`epochCounterKey`). -/
def getEpochCounter (db : ActivationDb) (ech : Nat) : Except DBError Nat :=
  match db.epochCounter ech with
  | some v => .ok v
  | none => .error .notFound

/-- incValidAtxCounter (atxdb.go): write the incremented (or initialized)
per-epoch counter. -/
def incValidAtxCounter (db : ActivationDb) (ech : Nat) : ActivationDb :=
  { db with
    epochCounter :=
      updF db.epochCounter ech (nextCounterValue (getEpochCounter db ech)) }

/-- addAtxToNodeId (atxdb.go): unconditionally point the node's last-ATX
record at this ATX. -/
def addAtxToNodeId (db : ActivationDb) (nodeId : String)
    (atx : ActivationTx) : ActivationDb :=
  { db with lastAtx := updF db.lastAtx nodeId atx.id }

/-- StoreAtx (atxdb.go): return at once when the ATX id is already present
(idempotent replay), otherwise write the NIPST and body, update the
positioning record, bump the epoch counter for the epoch argument, and
point the node's last-ATX record at this ATX.  Store-level put failures
cannot arise in this model, and the positioning read fails only with
not-found, so the error branch of `updatePosAtxIfNeeded` is unreachable
and the result state is total. -/
def StoreAtx (db : ActivationDb) (ech : Nat) (atx : ActivationTx) :
    ActivationDb :=
  match lookupA db.atxs atx.id with
  | some _ => db
  | none =>
      let db1 := storeAtxUnlocked db atx
      let db2 :=
        match updatePosAtxIfNeeded db1 atx with
        | .ok d => d
        | .error _ => db1
      let db3 := incValidAtxCounter db2 ech
      addAtxToNodeId db3 atx.nodeId atx

/-- Modelled from the spec: `IdStore.StoreNodeIdentity`, an idempotent
insert of the identity under its key. -/
def storeNodeIdentity (db : ActivationDb) (nodeId : String) : ActivationDb :=
  { db with identities := updF db.identities nodeId nodeId }

/-- ProcessAtx (atxdb.go): drop an ATX already in the DB; otherwise run
contextual validation — whose error is only logged — then store the ATX
under its publication epoch and record the node identity, regardless of
the validation outcome. -/
def ProcessAtx (db : ActivationDb) (atx : ActivationTx) : ActivationDb :=
  match getAtx db atx.id with
  | .ok _ => db
  | .error _ =>
      let epoch := getEpoch atx.pubLayerIdx db.layersPerEpoch
      let _ := ContextuallyValidateAtx db atx
      let db1 := StoreAtx db epoch atx
      storeNodeIdentity db1 atx.nodeId

/-- ActiveSetSize (atxdb.go): read the per-epoch counter; a missing key is
an error. -/
def ActiveSetSize (db : ActivationDb) (epochId : Nat) : Except DBError Nat :=
  match db.epochCounter epochId with
  | some v => .ok v
  | none => .error .notFound

/-- GetPosAtxId (atxdb.go): the recorded positioning ATX, rejected when its
layer's epoch differs from the requested epoch. -/
def GetPosAtxId (db : ActivationDb) (epochId : Nat) : Except DBError Nat :=
  match getCurrentAtxIdAndLayer db with
  | .error e => .error e
  | .ok (atxId, layerId) =>
      if getEpoch layerId db.layersPerEpoch ≠ epochId then .error .other
      else .ok atxId

/-- IsIdentityActive (atxdb.go): genesis layers are unconditionally active;
otherwise resolve the identity (absence means inactive, not an error),
fetch its last ATX, and compare the target epoch, falling back to the
previous ATX when the last one targets a later epoch. -/
def IsIdentityActive (db : ActivationDb) (edId : String) (layer : Nat) :
    Bool × Nat × Option DBError :=
  if getEpoch layer db.layersPerEpoch = 0 then (true, emptyAtxId, none)
  else
    let epoch := getEpoch layer db.layersPerEpoch
    match db.identities edId with
    | none => (false, emptyAtxId, none)
    | some nodeId =>
        match getNodeLastAtxId db nodeId with
        | .error e => (false, emptyAtxId, some e)
        | .ok atxId =>
            match getAtx db atxId with
            | .error _ => (false, emptyAtxId, none)
            | .ok atx =>
                let lastAtxTargetEpoch := targetEpoch atx db.layersPerEpoch
                if lastAtxTargetEpoch < epoch then (false, emptyAtxId, none)
                else if lastAtxTargetEpoch > epoch then
                  if atx.prevATXId = emptyAtxId then (false, emptyAtxId, none)
                  else
                    match getAtx db atx.prevATXId with
                    | .error _ => (false, emptyAtxId, none)
                    | .ok atx2 =>
                        (decide (targetEpoch atx2 db.layersPerEpoch = epoch),
                          atx2.id, none)
                else
                  (decide (targetEpoch atx db.layersPerEpoch = epoch),
                    atx.id, none)

/-- Discriminator for `Except` results (the Go `err == nil` test). -/
def exceptOk {ε α : Type} (r : Except ε α) : Bool :=
  match r with
  | .ok _ => true
  | .error _ => false

/-- Positioning record left behind by `updatePosAtxIfNeeded`: kept when
present with a layer at least the incoming publication layer, overwritten
otherwise. -/
def newPosRecord (cur : Option (Nat × Nat)) (atx : ActivationTx) :
    Option (Nat × Nat) :=
  match cur with
  | some (i, l) =>
      if l ≥ atx.pubLayerIdx then some (i, l)
      else some (atx.id, atx.pubLayerIdx)
  | none => some (atx.id, atx.pubLayerIdx)

/-- Number of ATX bodies in the store whose publication epoch is `e`. -/
def storedCountByPubEpoch (db : ActivationDb) (e : Nat) : Nat :=
  (db.atxs.filter
    (fun p => getEpoch p.2.pubLayerIdx db.layersPerEpoch == e)).length

/-- Test used by the specification-side active-set count: the id resolves in
the store and the stored ATX targets the publication epoch. -/
def activeP (db : ActivationDb) (pubEpoch id : Nat) : Bool :=
  match getAtx db id with
  | .ok atx => targetEpoch atx db.layersPerEpoch == pubEpoch
  | .error _ => false

/-- ATX ids referenced by those blocks of a traversal that lie in the
counting epoch. -/
def blockIdsInEpoch (db : ActivationDb) (countingEpoch : Nat) :
    List Block → List Nat
  | [] => []
  | blk :: rest =>
      (if getEpoch blk.layerIndex db.layersPerEpoch = countingEpoch then
        blk.atxIds
      else []) ++ blockIdsInEpoch db countingEpoch rest

/-- Specification-side active-set count, following the claim's words: the
number of distinct ATX ids referenced by the delivered blocks that lie in
epoch `pubEpoch - 1` and whose stored target epoch equals `pubEpoch`. -/
def specDistinctActiveCount (db : ActivationDb) (a : ActivationTx) : Nat :=
  ((blockIdsInEpoch db (getEpoch a.pubLayerIdx db.layersPerEpoch - 1)
      (db.meshBlocks a.view
        ((getEpoch a.pubLayerIdx db.layersPerEpoch - 1) *
          db.layersPerEpoch))).toFinset.filter
    (fun i =>
      activeP db (getEpoch a.pubLayerIdx db.layersPerEpoch) i = true)).card

/-- Empty activation DB over four layers per epoch, with an empty mesh and
an accepting NIPST validator; the base state of the concrete scenarios. -/
def emptyDb : ActivationDb :=
  { layersPerEpoch := 4
    atxs := []
    nipsts := fun _ => none
    lastAtx := fun _ => none
    epochCounter := fun _ => none
    posAtx := none
    identities := fun _ => none
    activesetCache := fun _ => none
    meshBlocks := fun _ _ => []
    nipstValidator := fun _ _ => true }

/-- Scenario for claim C1: the store already knows a last ATX (id 5) for
node `N`, so a first ATX from `N` fails contextual validation. -/
def exDbC1 : ActivationDb :=
  { emptyDb with lastAtx := fun n => if n = "N" then some 5 else none }

/-- First ATX of node `N` (sequence 0, no previous ATX), published at layer
3, carrying a NIPST blob. -/
def atxC1 : ActivationTx :=
  { id := 9, nodeId := "N", sequence := 0, prevATXId := 0,
    positioningAtx := 0, pubLayerIdx := 3, startTick := 0,
    activeSetSize := 0, view := [], nipst := some 5 }

/-- Genesis ATX of the C2 scenario: published at layer 3 (epoch 0), so its
target epoch is 1. -/
def atxC2 : ActivationTx :=
  { id := 9, nodeId := "N", sequence := 0, prevATXId := 0,
    positioningAtx := 0, pubLayerIdx := 3, startTick := 0,
    activeSetSize := 0, view := [], nipst := none }

/-- ATX stored in the C3 scenario: published at layer 0, targeting epoch 1. -/
def atxC3stored : ActivationTx :=
  { id := 7, nodeId := "P", sequence := 0, prevATXId := 0,
    positioningAtx := 0, pubLayerIdx := 0, startTick := 0,
    activeSetSize := 0, view := [], nipst := none }

/-- Scenario for claim C3: one epoch-0 block (id 100) referencing the
stored ATX 7 is reachable from the view `[100]`. -/
def exDbC3 : ActivationDb :=
  { emptyDb with
    atxs := [(7, atxC3stored)]
    meshBlocks := fun v _ =>
      if v = [100] then [{ id := 100, layerIndex := 0, atxIds := [7] }]
      else [] }

/-- Epoch-1 ATX over the view `[100]`; its active-set recount is 1. -/
def atxC3epoch1 : ActivationTx :=
  { id := 11, nodeId := "N", sequence := 0, prevATXId := 0,
    positioningAtx := 7, pubLayerIdx := 4, startTick := 0,
    activeSetSize := 1, view := [100], nipst := none }

/-- Genesis ATX over the same view `[100]` as `atxC3epoch1`. -/
def atxC3genesis : ActivationTx :=
  { id := 12, nodeId := "M", sequence := 0, prevATXId := 0,
    positioningAtx := 0, pubLayerIdx := 0, startTick := 0,
    activeSetSize := 1, view := [100], nipst := none }

/-- State of the C3 scenario after the recount for `atxC3epoch1`, whose
result 1 has been cached under the view `[100]`. -/
def exDbC3cached : ActivationDb :=
  match CalcActiveSetFromView exDbC3 atxC3epoch1 with
  | .ok (_, d) => d
  | .error _ => exDbC3

/-- Positioning ATX of the C4 scenario, published at layer 4. -/
def posAtxC4 : ActivationTx :=
  { id := 7, nodeId := "P", sequence := 0, prevATXId := 0,
    positioningAtx := 0, pubLayerIdx := 4, startTick := 0,
    activeSetSize := 0, view := [], nipst := none }

/-- Scenario for claim C4: a positioning ATX (id 7) published at layer 4 is
in the store. -/
def exDbC4 : ActivationDb :=
  { emptyDb with atxs := [(7, posAtxC4)] }

/-- ATX published exactly `LAYERS_PER_EPOCH` layers after its positioning
ATX (layer 8 against layer 4). -/
def atxC4near : ActivationTx :=
  { id := 11, nodeId := "N", sequence := 0, prevATXId := 0,
    positioningAtx := 7, pubLayerIdx := 8, startTick := 0,
    activeSetSize := 0, view := [], nipst := none }

/-- ATX published `LAYERS_PER_EPOCH + 1` layers after its positioning ATX
(layer 9 against layer 4). -/
def atxC4far : ActivationTx :=
  { id := 13, nodeId := "N", sequence := 0, prevATXId := 0,
    positioningAtx := 7, pubLayerIdx := 9, startTick := 0,
    activeSetSize := 0, view := [], nipst := none }

/-- ATX whose positioning id 99 is absent from the C4 store. -/
def atxC4missing : ActivationTx :=
  { id := 15, nodeId := "N", sequence := 0, prevATXId := 0,
    positioningAtx := 99, pubLayerIdx := 8, startTick := 0,
    activeSetSize := 0, view := [], nipst := none }

/-- ATX id 3 of the C6 scenario. -/
def atxC6 : ActivationTx :=
  { id := 3, nodeId := "N", sequence := 0, prevATXId := 0,
    positioningAtx := 0, pubLayerIdx := 1, startTick := 0,
    activeSetSize := 0, view := [], nipst := none }

/-- Store of the C6 scenario, already holding ATX id 3. -/
def exDbC6 : ActivationDb :=
  { emptyDb with atxs := [(3, atxC6)] }

/-- Store of the C7 scenario, with a positioning record at layer 10. -/
def exDbC7 : ActivationDb :=
  { emptyDb with posAtx := some (1, 10) }

/-- ATX of the C7 scenario published at layer 10, tying the recorded
positioning layer. -/
def atxC7 : ActivationTx :=
  { id := 2, nodeId := "N", sequence := 0, prevATXId := 0,
    positioningAtx := 0, pubLayerIdx := 10, startTick := 0,
    activeSetSize := 0, view := [], nipst := none }

/-- Genesis ATX of the C9 scenario declaring a non-zero active-set size
while its recount fails. -/
def atxC9 : ActivationTx :=
  { id := 21, nodeId := "N", sequence := 0, prevATXId := 0,
    positioningAtx := 0, pubLayerIdx := 3, startTick := 0,
    activeSetSize := 2, view := [], nipst := none }

/-- Counter invariant: each per-epoch counter equals (modulo `2 ^ 32`) the
number of stored ATX bodies whose publication epoch is that epoch, with the
counter key absent while no such ATX is stored. -/
def CounterInv (db : ActivationDb) : Prop :=
  ∀ e, db.epochCounter e =
    if storedCountByPubEpoch db e = 0 then none
    else some (storedCountByPubEpoch db e % 2 ^ 32)

/-- Positioning invariant: whenever an ATX body is stored, the positioning
record exists and its layer dominates the publication layer of every
stored ATX. -/
def PosInv (db : ActivationDb) : Prop :=
  ∀ p ∈ db.atxs, ∃ pi pl,
    db.posAtx = some (pi, pl) ∧ p.2.pubLayerIdx ≤ pl

/-- C5: `ContextuallyValidateAtx` succeeds exactly when: if `a.prevAtxId` is
not `EMPTY`, `GetNodeLastAtxId(a.nodeId)` is found and equals `a.prevAtxId`;
and if `a.prevAtxId` is `EMPTY`, `GetNodeLastAtxId(a.nodeId)` reports
`NotFound`. -/
theorem contextuallyValidateAtx_ok_iff (db : ActivationDb)
    (a : ActivationTx) :
    ContextuallyValidateAtx db a = .ok () ↔
      (if a.prevATXId ≠ emptyAtxId then
        getNodeLastAtxId db a.nodeId = .ok a.prevATXId
      else
        getNodeLastAtxId db a.nodeId = .error .notFound) := by
  by_cases hprev : a.prevATXId = emptyAtxId <;>
    cases hlast : db.lastAtx a.nodeId <;>
      simp [ContextuallyValidateAtx, getNodeLastAtxId, hprev, hlast]

/-- Looking a key up right after writing it returns the written value. -/
theorem lookupA_putA_self {α : Type} (l : List (Nat × α)) (k : Nat) (v : α) :
    lookupA (putA l k v) k = some v := by
  induction l with
  | nil => simp [putA, lookupA]
  | cons p rest ih =>
      obtain ⟨k2, v2⟩ := p
      by_cases h : k2 = k
      · simp [putA, h, lookupA]
      · simp [putA, h, lookupA, ih]

/-- Writing a fresh key appends the binding at the end of the store. -/
theorem putA_of_lookupA_none {α : Type} (l : List (Nat × α)) (k : Nat)
    (v : α) (h : lookupA l k = none) : putA l k v = l ++ [(k, v)] := by
  induction l with
  | nil => simp [putA]
  | cons p rest ih =>
      obtain ⟨k2, v2⟩ := p
      by_cases hk : k2 = k
      · simp [lookupA, hk] at h
      · simp only [lookupA, hk, if_false] at h
        simp [putA, hk, ih h]

/-- Closed form of `updatePosAtxIfNeeded`: it always succeeds and leaves
`newPosRecord` in the positioning slot. -/
theorem updatePos_eq (db : ActivationDb) (atx : ActivationTx) :
    updatePosAtxIfNeeded db atx =
      .ok { db with posAtx := newPosRecord db.posAtx atx } := by
  cases h : db.posAtx with
  | none =>
      simp [updatePosAtxIfNeeded, getCurrentAtxIdAndLayer, newPosRecord, h]
  | some p =>
      obtain ⟨i, l⟩ := p
      by_cases hl : l ≥ atx.pubLayerIdx
      · simp only [updatePosAtxIfNeeded, getCurrentAtxIdAndLayer,
          newPosRecord, h, hl, if_pos]
        rw [← h]
      · simp [updatePosAtxIfNeeded, getCurrentAtxIdAndLayer, newPosRecord,
          h, hl]

/-- StoreAtx is the identity on a store that already holds the ATX id. -/
theorem storeAtx_of_mem (db : ActivationDb) (ech : Nat) (a : ActivationTx)
    (h : lookupA db.atxs a.id ≠ none) : StoreAtx db ech a = db := by
  unfold StoreAtx
  cases hl : lookupA db.atxs a.id with
  | none => exact absurd hl h
  | some v => rfl

/-- Closed form of StoreAtx on a fresh ATX id: the NIPST blob, the detached
body, the positioning record, the epoch counter and the last-ATX pointer
are all written. -/
theorem storeAtx_of_not_mem (db : ActivationDb) (ech : Nat)
    (a : ActivationTx) (h : lookupA db.atxs a.id = none) :
    StoreAtx db ech a =
      { db with
        nipsts := updF db.nipsts a.id a.nipst,
        atxs := putA db.atxs a.id { a with nipst := none },
        posAtx := newPosRecord db.posAtx a,
        epochCounter := updF db.epochCounter ech
          (nextCounterValue (getEpochCounter db ech)),
        lastAtx := updF db.lastAtx a.nodeId a.id } := by
  unfold StoreAtx
  rw [h]
  simp only [updatePos_eq]
  rfl

/-- ProcessAtx on a fresh ATX id proceeds to the store-and-record phase. -/
theorem processAtx_of_not_mem (db : ActivationDb) (a : ActivationTx)
    (h : lookupA db.atxs a.id = none) :
    ProcessAtx db a =
      storeNodeIdentity
        (StoreAtx db (getEpoch a.pubLayerIdx db.layersPerEpoch) a)
        a.nodeId := by
  unfold ProcessAtx getAtx
  by_cases hid : a.id = emptyAtxId
  · simp [hid]
  · simp [hid, h]

/-- ProcessAtx drops an ATX whose (non-empty) id is already stored. -/
theorem processAtx_of_mem (db : ActivationDb) (a x : ActivationTx)
    (h : lookupA db.atxs a.id = some x) (hid : a.id ≠ emptyAtxId) :
    ProcessAtx db a = db := by
  unfold ProcessAtx getAtx
  simp [hid, h]

/-- C6: `StoreAtx` is idempotent: a call on an ATX id already present in
the store returns without writing, and replaying `StoreAtx` on the same
epoch and ATX leaves the whole store state equal to that after a single
call. -/
theorem storeAtx_idempotent :
    (∀ (db : ActivationDb) (ech : Nat) (a : ActivationTx),
        lookupA db.atxs a.id ≠ none → StoreAtx db ech a = db) ∧
    (∀ (db : ActivationDb) (ech : Nat) (a : ActivationTx),
        StoreAtx (StoreAtx db ech a) ech a = StoreAtx db ech a) := by
  refine ⟨fun db ech a h => storeAtx_of_mem db ech a h, fun db ech a => ?_⟩
  cases hl : lookupA db.atxs a.id with
  | some v =>
      rw [storeAtx_of_mem db ech a (by simp [hl])]
      exact storeAtx_of_mem db ech a (by simp [hl])
  | none =>
      apply storeAtx_of_mem
      rw [storeAtx_of_not_mem db ech a hl]
      show lookupA (putA db.atxs a.id { a with nipst := none }) a.id ≠ none
      rw [lookupA_putA_self]
      simp

/-- C6 witness: replaying the stored ATX id 3 leaves the C6 store
untouched. -/
theorem storeAtx_idempotent_witness : StoreAtx exDbC6 0 atxC6 = exDbC6 :=
  storeAtx_idempotent.1 exDbC6 0 atxC6 (by decide)

/-- One StoreAtx call preserves the positioning invariant. -/
theorem posInv_storeAtx (db : ActivationDb) (ech : Nat) (a : ActivationTx)
    (h : PosInv db) : PosInv (StoreAtx db ech a) := by
  cases hl : lookupA db.atxs a.id with
  | some v =>
      rw [storeAtx_of_mem db ech a (by simp [hl])]
      exact h
  | none =>
      rw [storeAtx_of_not_mem db ech a hl]
      intro p hp
      have hp2 : p ∈ db.atxs ++ [(a.id, { a with nipst := none })] := by
        have := putA_of_lookupA_none db.atxs a.id { a with nipst := none } hl
        simpa [this] using hp
      show ∃ pi pl, newPosRecord db.posAtx a = some (pi, pl) ∧
        p.2.pubLayerIdx ≤ pl
      rcases List.mem_append.mp hp2 with hold | hnew
      · obtain ⟨pi, pl, hsome, hle⟩ := h p hold
        rw [hsome]
        unfold newPosRecord
        by_cases hcmp : pl ≥ a.pubLayerIdx
        · exact ⟨pi, pl, by simp [hcmp], hle⟩
        · refine ⟨a.id, a.pubLayerIdx, by simp [hcmp], ?_⟩
          omega
      · have hpe : p = (a.id, { a with nipst := none }) := by
          simpa using hnew
        subst hpe
        unfold newPosRecord
        cases hcur : db.posAtx with
        | none => exact ⟨a.id, a.pubLayerIdx, rfl, le_refl _⟩
        | some q =>
            obtain ⟨i, l⟩ := q
            by_cases hcmp : l ≥ a.pubLayerIdx
            · exact ⟨i, l, by simp [hcmp], hcmp⟩
            · exact ⟨a.id, a.pubLayerIdx, by simp [hcmp], le_refl _⟩

/-- Any sequence of StoreAtx calls preserves the positioning invariant. -/
theorem posInv_foldl (calls : List (Nat × ActivationTx)) :
    ∀ db : ActivationDb, PosInv db →
      PosInv (calls.foldl (fun d c => StoreAtx d c.1 c.2) db) := by
  induction calls with
  | nil => intro db h; exact h
  | cons c rest ih =>
      intro db h
      exact ih _ (posInv_storeAtx db c.1 c.2 h)

/-- C7: `StoreAtx` overwrites the positioning record only when it is
absent or strictly older than the incoming publication layer (equal-layer
ties keep the recorded ATX), hence after any sequence of `StoreAtx` calls
from a store with no ATXs the recorded positioning layer dominates the
publication layer of every stored ATX. -/
theorem posAtxRules :
    (∀ (db : ActivationDb) (a : ActivationTx) (i l : Nat),
        db.posAtx = some (i, l) → a.pubLayerIdx ≤ l →
        updatePosAtxIfNeeded db a = .ok db) ∧
    (∀ (db : ActivationDb) (a : ActivationTx),
        (db.posAtx = none ∨
          ∃ i l, db.posAtx = some (i, l) ∧ l < a.pubLayerIdx) →
        updatePosAtxIfNeeded db a =
          .ok { db with posAtx := some (a.id, a.pubLayerIdx) }) ∧
    (∀ (calls : List (Nat × ActivationTx)) (db0 : ActivationDb),
        db0.atxs = [] →
        ∀ p ∈ (calls.foldl (fun d c => StoreAtx d c.1 c.2) db0).atxs,
          ∃ pi pl,
            (calls.foldl (fun d c => StoreAtx d c.1 c.2) db0).posAtx =
              some (pi, pl) ∧
            p.2.pubLayerIdx ≤ pl) := by
  refine ⟨?_, ?_, ?_⟩
  · intro db a i l hsome hle
    rw [updatePos_eq]
    have hkeep : newPosRecord db.posAtx a = db.posAtx := by
      rw [hsome]; simp [newPosRecord, hle]
    rw [hkeep]
  · intro db a hcase
    rw [updatePos_eq]
    rcases hcase with hnone | ⟨i, l, hsome, hlt⟩
    · rw [hnone]; rfl
    · rw [hsome]
      have hcmp : ¬ l ≥ a.pubLayerIdx := by omega
      simp [newPosRecord, hcmp]
  · intro calls db0 h0
    have hbase : PosInv db0 := by
      intro p hp
      rw [h0] at hp
      cases hp
    exact posInv_foldl calls db0 hbase

/-- C7 witness: an ATX tying the recorded layer 10 does not displace the
positioning record. -/
theorem posAtxRules_witness :
    updatePosAtxIfNeeded exDbC7 atxC7 = .ok exDbC7 :=
  posAtxRules.1 exDbC7 atxC7 1 10 rfl (by decide)

/-- C10: `incValidAtxCounter` writes 1 into the epoch counter whenever the
read of the counter key fails with any error — not only not-found — and
never propagates the read error: the written value is total in the read
result. -/
theorem incCounterOnReadError :
    (∀ e : DBError, nextCounterValue (.error e) = 1) ∧
    (∀ (db : ActivationDb) (ech : Nat),
        (incValidAtxCounter db ech).epochCounter ech =
          some (nextCounterValue (getEpochCounter db ech))) := by
  constructor
  · intro e; rfl
  · intro db ech
    simp [incValidAtxCounter, updF]

/-- C8: `IsIdentityActive` answers `(true, EMPTY, ok)` for every key at a
genesis-epoch layer, and `(false, EMPTY, ok)` — no error — when the layer
is past genesis and the identity store does not know the key. -/
theorem isIdentityActiveRules :
    (∀ (db : ActivationDb) (k : String) (layer : Nat),
        getEpoch layer db.layersPerEpoch = 0 →
        IsIdentityActive db k layer = (true, emptyAtxId, none)) ∧
    (∀ (db : ActivationDb) (k : String) (layer : Nat),
        getEpoch layer db.layersPerEpoch ≠ 0 → db.identities k = none →
        IsIdentityActive db k layer = (false, emptyAtxId, none)) := by
  constructor
  · intro db k layer h
    simp [IsIdentityActive, h]
  · intro db k layer h hid
    simp [IsIdentityActive, h, hid]

/-- C8 witness: layer 2 is in genesis epoch 0, layer 5 is in epoch 1 and
the key is unknown. -/
theorem isIdentityActiveRules_witness :
    IsIdentityActive emptyDb "k" 2 = (true, emptyAtxId, none) ∧
    IsIdentityActive emptyDb "k" 5 = (false, emptyAtxId, none) :=
  ⟨isIdentityActiveRules.1 emptyDb "k" 2 rfl,
   isIdentityActiveRules.2 emptyDb "k" 5 (by decide) rfl⟩

/-- C9: when the publication epoch is genesis and the active-set recount
fails, the swallowed failure leaves the computed active set at 0, and the
declared-size equality is still enforced: validation reaches the NIPST
step exactly when the declared size is 0 and otherwise stops with the
mismatch error. -/
theorem genesisActiveSetDefaultsToZero (db : ActivationDb)
    (a : ActivationTx) (h1 : validatePrevAtx db a = .ok ())
    (h2 : validatePosAtx db a = .ok ())
    (h3 : isGenesis (getEpoch a.pubLayerIdx db.layersPerEpoch) = true)
    (h4 : calcResultCount (CalcActiveSetFromView db a) = none) :
    (a.activeSetSize ≠ 0 →
      SyntacticallyValidateAtx db a = .error .activeSetMismatch) ∧
    (a.activeSetSize = 0 →
      SyntacticallyValidateAtx db a = validateNipst db a) := by
  unfold SyntacticallyValidateAtx
  rw [h1, h2]
  cases hc : CalcActiveSetFromView db a with
  | ok p =>
      rw [hc] at h4
      obtain ⟨c, d⟩ := p
      simp [calcResultCount] at h4
  | error e =>
      rw [h3]
      constructor
      · intro hne
        simp [hne]
      · intro hz
        simp [hz]

/-- C9 witness: a genesis ATX declaring active-set size 2 whose recount
fails is stopped by the mismatch error. -/
theorem genesisActiveSetDefaultsToZero_witness :
    SyntacticallyValidateAtx emptyDb atxC9 = .error .activeSetMismatch :=
  (genesisActiveSetDefaultsToZero emptyDb atxC9 rfl rfl rfl rfl).1
    (by decide)

/-- C1 counterexample: the first ATX of node `N` fails contextual
validation (`doubleFirst`) on the C1 store, yet `ProcessAtx` stores it:
the ATX body appears in the store afterwards. -/
theorem processAtxDropCounterexample :
    ContextuallyValidateAtx exDbC1 atxC1 = .error .doubleFirst ∧
    lookupA exDbC1.atxs atxC1.id = none ∧
    lookupA (ProcessAtx exDbC1 atxC1).atxs atxC1.id =
      some { atxC1 with nipst := none } := ⟨rfl, rfl, rfl⟩

/-- C1 amended: `ProcessAtx` hands every not-yet-stored ATX to `StoreAtx`
regardless of the contextual-validation outcome (the error is only
logged): afterwards the body (NIPST detached) is stored and the node's
last-ATX pointer names it. -/
theorem processAtxStoresUnconditionally (db : ActivationDb)
    (a : ActivationTx) (h : lookupA db.atxs a.id = none) :
    lookupA (ProcessAtx db a).atxs a.id = some { a with nipst := none } ∧
    (ProcessAtx db a).lastAtx a.nodeId = some a.id := by
  rw [processAtx_of_not_mem db a h,
    storeAtx_of_not_mem db (getEpoch a.pubLayerIdx db.layersPerEpoch) a h]
  constructor
  · show lookupA (putA db.atxs a.id { a with nipst := none }) a.id = _
    exact lookupA_putA_self _ _ _
  · show updF db.lastAtx a.nodeId a.id a.nodeId = some a.id
    simp [updF]

/-- C1 witness: on the C1 store the contextual error is logged and the ATX
is stored anyway, with the last-ATX pointer moved to it. -/
theorem processAtxStoresUnconditionally_witness :
    ContextuallyValidateAtx exDbC1 atxC1 = .error .doubleFirst ∧
    lookupA (ProcessAtx exDbC1 atxC1).atxs atxC1.id =
        some { atxC1 with nipst := none } ∧
      (ProcessAtx exDbC1 atxC1).lastAtx atxC1.nodeId = some atxC1.id :=
  ⟨rfl, processAtxStoresUnconditionally exDbC1 atxC1 rfl⟩

/-- C2 counterexample: with four layers per epoch, processing a single
genesis ATX published at layer 3 (target epoch 1) stores it, yet
`ActiveSetSize 1` fails with not-found while `ActiveSetSize 0` — the
publication epoch — answers 1: the counter is keyed by the publication
epoch `ProcessAtx` passes to `StoreAtx`, not by the target epoch. -/
theorem activeSetSizeTargetEpochCounterexample :
    targetEpoch atxC2 emptyDb.layersPerEpoch = 1 ∧
    lookupA (ProcessAtx emptyDb atxC2).atxs atxC2.id =
      some { atxC2 with nipst := none } ∧
    ActiveSetSize (ProcessAtx emptyDb atxC2) 1 = .error .notFound ∧
    ActiveSetSize (ProcessAtx emptyDb atxC2) 0 = .ok 1 :=
  ⟨rfl, rfl, rfl, rfl⟩

/-- Appending one binding to the store adds its ATX to exactly the count
of its publication epoch. -/
theorem count_append_single (L : Nat) (xs : List (Nat × ActivationTx))
    (k : Nat) (b : ActivationTx) (e : Nat) :
    (List.filter (fun p => getEpoch p.2.pubLayerIdx L == e)
        (xs ++ [(k, b)])).length =
      (List.filter (fun p => getEpoch p.2.pubLayerIdx L == e) xs).length +
        (if getEpoch b.pubLayerIdx L = e then 1 else 0) := by
  rw [List.filter_append, List.length_append]
  by_cases hb : getEpoch b.pubLayerIdx L = e <;> simp [hb]

/-- Reading an absent counter makes `incValidAtxCounter` write 1. -/
theorem nextCounter_of_none (db : ActivationDb) (ech : Nat)
    (h : db.epochCounter ech = none) :
    nextCounterValue (getEpochCounter db ech) = 1 := by
  simp [getEpochCounter, nextCounterValue, h]

/-- Reading a present counter makes `incValidAtxCounter` increment it. -/
theorem nextCounter_of_some (db : ActivationDb) (ech v : Nat)
    (h : db.epochCounter ech = some v) :
    nextCounterValue (getEpochCounter db ech) = (v + 1) % 2 ^ 32 := by
  simp [getEpochCounter, nextCounterValue, h]

/-- One ProcessAtx call preserves the counter invariant. -/
theorem counterInv_processAtx (db : ActivationDb) (a : ActivationTx)
    (h : CounterInv db) : CounterInv (ProcessAtx db a) := by
  have hstore : CounterInv
      (storeNodeIdentity
        (StoreAtx db (getEpoch a.pubLayerIdx db.layersPerEpoch) a)
        a.nodeId) := by
    cases hl : lookupA db.atxs a.id with
    | some v =>
        rw [storeAtx_of_mem db _ a (by simp [hl])]
        exact h
    | none =>
        rw [storeAtx_of_not_mem db _ a hl]
        intro e
        have hput := putA_of_lookupA_none db.atxs a.id
          { a with nipst := none } hl
        have hold := h e
        simp only [storedCountByPubEpoch] at hold
        simp only [storeNodeIdentity, storedCountByPubEpoch, updF, hput,
          count_append_single]
        by_cases hsame : getEpoch a.pubLayerIdx db.layersPerEpoch = e
        · rw [if_pos hsame.symm, if_pos hsame, hsame]
          by_cases hz : (List.filter
              (fun p => getEpoch p.2.pubLayerIdx db.layersPerEpoch == e)
              db.atxs).length = 0
          · rw [nextCounter_of_none db e (by rw [hold, if_pos hz]), hz]
            norm_num
          · rw [nextCounter_of_some db e _ (by rw [hold, if_neg hz])]
            have hnz : ¬ (List.filter
                (fun p => getEpoch p.2.pubLayerIdx db.layersPerEpoch == e)
                db.atxs).length + 1 = 0 := by omega
            rw [if_neg hnz, Nat.mod_add_mod]
        · have hne2 : ¬ e = getEpoch a.pubLayerIdx db.layersPerEpoch :=
            fun hx => hsame hx.symm
          rw [if_neg hne2, hold, if_neg hsame]
          simp
  by_cases hid : a.id = emptyAtxId
  · have hp : ProcessAtx db a =
        storeNodeIdentity
          (StoreAtx db (getEpoch a.pubLayerIdx db.layersPerEpoch) a)
          a.nodeId := by
      unfold ProcessAtx getAtx
      simp [hid]
    rw [hp]
    exact hstore
  · cases hl : lookupA db.atxs a.id with
    | some v =>
        rw [processAtx_of_mem db a v hl hid]
        exact h
    | none =>
        rw [processAtx_of_not_mem db a hl]
        exact hstore

/-- Any sequence of ProcessAtx calls preserves the counter invariant. -/
theorem counterInv_foldl (l : List ActivationTx) :
    ∀ db : ActivationDb, CounterInv db →
      CounterInv (l.foldl ProcessAtx db) := by
  induction l with
  | nil => intro db h; exact h
  | cons a rest ih =>
      intro db h
      exact ih _ (counterInv_processAtx db a h)

/-- C2 amended: after any sequence of `ProcessAtx` calls from a store with
no ATX bodies and no counters, `ActiveSetSize e` reads the number of
stored ATXs whose publication epoch — not target epoch — equals `e`
(modulo `2 ^ 32`), failing with not-found when that count is zero. -/
theorem activeSetSizeCountsPublicationEpoch (db0 : ActivationDb)
    (h1 : db0.atxs = []) (h2 : ∀ e, db0.epochCounter e = none)
    (l : List ActivationTx) (e : Nat) :
    ActiveSetSize (l.foldl ProcessAtx db0) e =
      (if storedCountByPubEpoch (l.foldl ProcessAtx db0) e = 0 then
        .error .notFound
      else .ok (storedCountByPubEpoch (l.foldl ProcessAtx db0) e % 2 ^ 32)) := by
  have hbase : CounterInv db0 := by
    intro e2
    rw [h2 e2]
    simp [storedCountByPubEpoch, h1]
  have hfin := counterInv_foldl l db0 hbase e
  unfold ActiveSetSize
  rw [hfin]
  by_cases hz : storedCountByPubEpoch (l.foldl ProcessAtx db0) e = 0 <;>
    simp [hz]

/-- C2 amended witness: the single-ATX genesis scenario instantiates the
publication-epoch counting law. -/
theorem activeSetSizeCountsPublicationEpoch_witness :
    ActiveSetSize ([atxC2].foldl ProcessAtx emptyDb) 0 =
      (if storedCountByPubEpoch ([atxC2].foldl ProcessAtx emptyDb) 0 = 0 then
        .error .notFound
      else
        .ok (storedCountByPubEpoch ([atxC2].foldl ProcessAtx emptyDb) 0 %
          2 ^ 32)) :=
  activeSetSizeCountsPublicationEpoch emptyDb rfl (fun _ => rfl) [atxC2] 0

/-- Syntactic validation fails whenever its positioning step fails. -/
theorem sva_fails_of_posStep (db : ActivationDb) (a : ActivationTx)
    (e : SynError) (h : validatePosAtx db a = .error e) :
    exceptOk (SyntacticallyValidateAtx db a) = false := by
  unfold SyntacticallyValidateAtx
  cases hp : validatePrevAtx db a with
  | error e2 => simp [exceptOk]
  | ok u => simp [h, exceptOk]

/-- C4: with a non-empty positioning id, `SyntacticallyValidateAtx` fails
when the positioning ATX is missing, not strictly earlier, or more than
`LAYERS_PER_EPOCH` layers old; a distance of exactly `LAYERS_PER_EPOCH`
is accepted and one more is rejected; and an empty positioning id fails
outside a genesis publication epoch. -/
theorem posAtxDistanceRules :
    (∀ (db : ActivationDb) (a : ActivationTx) (e : DBError),
        a.positioningAtx ≠ emptyAtxId →
        getAtx db a.positioningAtx = .error e →
        exceptOk (SyntacticallyValidateAtx db a) = false) ∧
    (∀ (db : ActivationDb) (a p : ActivationTx),
        a.positioningAtx ≠ emptyAtxId →
        getAtx db a.positioningAtx = .ok p →
        a.pubLayerIdx ≤ p.pubLayerIdx →
        exceptOk (SyntacticallyValidateAtx db a) = false) ∧
    (∀ (db : ActivationDb) (a p : ActivationTx),
        a.positioningAtx ≠ emptyAtxId →
        getAtx db a.positioningAtx = .ok p →
        db.layersPerEpoch < a.pubLayerIdx - p.pubLayerIdx →
        exceptOk (SyntacticallyValidateAtx db a) = false) ∧
    (∀ (db : ActivationDb) (a : ActivationTx),
        a.positioningAtx = emptyAtxId →
        isGenesis (getEpoch a.pubLayerIdx db.layersPerEpoch) = false →
        exceptOk (SyntacticallyValidateAtx db a) = false) ∧
    SyntacticallyValidateAtx exDbC4 atxC4near = .ok () ∧
    SyntacticallyValidateAtx exDbC4 atxC4far = .error .posAtxTooOld := by
  refine ⟨?_, ?_, ?_, ?_, rfl, rfl⟩
  · intro db a e hne hget
    apply sva_fails_of_posStep db a .posAtxNotFound
    unfold validatePosAtx
    simp [hne, hget]
  · intro db a p hne hget hle
    apply sva_fails_of_posStep db a .posAtxNotBefore
    unfold validatePosAtx
    simp [hne, hget, hle]
  · intro db a p hne hget hfar
    have hgt : ¬ a.pubLayerIdx ≤ p.pubLayerIdx := by omega
    apply sva_fails_of_posStep db a .posAtxTooOld
    unfold validatePosAtx
    simp [hne, hget, hgt, hfar]
  · intro db a hempty hg
    apply sva_fails_of_posStep db a .missingPosAtx
    unfold validatePosAtx
    simp [hempty, hg]

/-- C4 witness: an ATX whose positioning id 99 is absent from the C4 store
is rejected. -/
theorem posAtxDistanceRules_witness :
    exceptOk (SyntacticallyValidateAtx exDbC4 atxC4missing) = false :=
  posAtxDistanceRules.1 exDbC4 atxC4missing .notFound (by decide) rfl

/-- Inserting an element into a finite set grows the cardinality by one
over the set with that element erased. -/
theorem card_insert_erase (U : Finset Nat) (i : Nat) :
    (insert i U).card = (U.erase i).card + 1 := by
  by_cases h : i ∈ U
  · rw [Finset.insert_eq_self.mpr h, Finset.card_erase_of_mem h]
    have hpos : 0 < U.card := Finset.card_pos.mpr ⟨i, h⟩
    omega
  · rw [Finset.card_insert_of_not_mem h, Finset.erase_eq_of_not_mem h]

/-- Marking a fresh id as seen moves its (possible) contribution out of
the remaining filtered difference. -/
theorem card_filter_insert_sdiff (A S : Finset Nat) (i : Nat)
    (P : Nat → Prop) [DecidablePred P] (hS : i ∉ S) :
    (((insert i A) \ S).filter P).card =
      ((A \ insert i S).filter P).card + (if P i then 1 else 0) := by
  rw [Finset.insert_sdiff_of_not_mem _ hS, Finset.filter_insert,
    Finset.sdiff_insert, Finset.filter_erase]
  by_cases hp : P i
  · rw [if_pos hp, if_pos hp, card_insert_erase]
  · rw [if_neg hp, if_neg hp, Finset.erase_eq_of_not_mem
      (fun hmem => hp (Finset.mem_filter.mp hmem).2)]
    omega

/-- Filtered difference of a union splits into the two disjoint filtered
differences. -/
theorem card_filter_union_sdiff (A B S : Finset Nat) (P : Nat → Prop)
    [DecidablePred P] :
    (((A ∪ B) \ S).filter P).card =
      ((A \ S).filter P).card + ((B \ (A ∪ S)).filter P).card := by
  have hdis : Disjoint ((A \ S).filter P) ((B \ (A ∪ S)).filter P) := by
    rw [Finset.disjoint_left]
    intro y hy1 hy2
    simp only [Finset.mem_filter, Finset.mem_sdiff, Finset.mem_union]
      at hy1 hy2
    tauto
  rw [← Finset.card_union_of_disjoint hdis]
  congr 1
  ext y
  simp only [Finset.mem_filter, Finset.mem_sdiff, Finset.mem_union]
  tauto

/-- Characterization of the inner traversal loop: when every id resolves,
it succeeds, the seen set accumulates the ids, and the counter advances by
the number of distinct unseen ids whose target epoch matches. -/
theorem visitIds_spec (db : ActivationDb) (pe : Nat) (ids : List Nat) :
    ∀ (seen : List Nat) (c : Nat),
      (∀ id2 ∈ ids, ∃ x, getAtx db id2 = .ok x) → c < 2 ^ 32 →
      ∃ seen2 : List Nat,
        visitIds db pe ids seen c =
          .ok (seen2,
            (c + ((ids.toFinset \ seen.toFinset).filter
                (fun i => activeP db pe i = true)).card) % 2 ^ 32) ∧
        seen2.toFinset = ids.toFinset ∪ seen.toFinset := by
  induction ids with
  | nil =>
      intro seen c _ hc
      refine ⟨seen, ?_, by simp⟩
      have hK : ((([] : List Nat).toFinset \ seen.toFinset).filter
          (fun i => activeP db pe i = true)).card = 0 := by simp
      rw [hK, Nat.add_zero, Nat.mod_eq_of_lt hc]
      simp only [visitIds]
  | cons i rest ih =>
      intro seen c H hc
      have Hrest : ∀ id2 ∈ rest, ∃ x, getAtx db id2 = .ok x :=
        fun x2 hx2 => H x2 (List.mem_cons_of_mem _ hx2)
      by_cases hmem : i ∈ seen
      · obtain ⟨seen2, h1, h2⟩ := ih seen c Hrest hc
        have hset : (i :: rest).toFinset \ seen.toFinset =
            rest.toFinset \ seen.toFinset := by
          rw [List.toFinset_cons]
          exact Finset.insert_sdiff_of_mem _ (List.mem_toFinset.mpr hmem)
        refine ⟨seen2, ?_, ?_⟩
        · simp only [visitIds, if_pos hmem]
          rw [h1, hset]
        · have hmem2 : i ∈ rest.toFinset ∪ seen.toFinset :=
            Finset.mem_union.mpr (Or.inr (List.mem_toFinset.mpr hmem))
          rw [h2, List.toFinset_cons, Finset.insert_union,
            Finset.insert_eq_self.mpr hmem2]
      · obtain ⟨x, hx⟩ := H i (List.mem_cons_self i rest)
        have hSn : i ∉ seen.toFinset :=
          fun hh => hmem (List.mem_toFinset.mp hh)
        by_cases hact : targetEpoch x db.layersPerEpoch = pe
        · have hP : activeP db pe i = true := by
            simp [activeP, hx, hact]
          have hc2 : (c + 1) % 2 ^ 32 < 2 ^ 32 :=
            Nat.mod_lt _ (by norm_num)
          obtain ⟨seen2, h1, h2⟩ := ih (i :: seen) ((c + 1) % 2 ^ 32)
            Hrest hc2
          have hcond : ¬ (targetEpoch x db.layersPerEpoch ≠ pe) := by
            simp [hact]
          have hK : (((i :: rest).toFinset \ seen.toFinset).filter
              (fun j => activeP db pe j = true)).card =
              ((rest.toFinset \ (i :: seen).toFinset).filter
                (fun j => activeP db pe j = true)).card + 1 := by
            rw [List.toFinset_cons, List.toFinset_cons,
              card_filter_insert_sdiff _ _ _ _ hSn, if_pos hP]
          refine ⟨seen2, ?_, ?_⟩
          · simp only [visitIds, if_neg hmem, hx, if_neg hcond]
            rw [h1, hK, Nat.mod_add_mod]
            have harith : c + 1 +
                ((rest.toFinset \ (i :: seen).toFinset).filter
                  (fun j => activeP db pe j = true)).card =
                c + (((rest.toFinset \ (i :: seen).toFinset).filter
                  (fun j => activeP db pe j = true)).card + 1) := by
              omega
            rw [harith]
          · rw [h2, List.toFinset_cons, List.toFinset_cons]
            ext y
            simp only [Finset.mem_union, Finset.mem_insert]
            tauto
        · have hP : ¬ (activeP db pe i = true) := by
            simp [activeP, hx, hact]
          obtain ⟨seen2, h1, h2⟩ := ih (i :: seen) c Hrest hc
          have hK : (((i :: rest).toFinset \ seen.toFinset).filter
              (fun j => activeP db pe j = true)).card =
              ((rest.toFinset \ (i :: seen).toFinset).filter
                (fun j => activeP db pe j = true)).card := by
            rw [List.toFinset_cons, List.toFinset_cons,
              card_filter_insert_sdiff _ _ _ _ hSn, if_neg hP, Nat.add_zero]
          refine ⟨seen2, ?_, ?_⟩
          · simp only [visitIds, if_neg hmem, hx, if_pos hact]
            rw [h1, hK]
          · rw [h2, List.toFinset_cons, List.toFinset_cons]
            ext y
            simp only [Finset.mem_union, Finset.mem_insert]
            tauto

/-- Characterization of the outer traversal loop over the delivered
blocks. -/
theorem visitBlocks_spec (db : ActivationDb) (pe ce : Nat)
    (blocks : List Block) :
    ∀ (seen : List Nat) (c : Nat),
      (∀ blk ∈ blocks, getEpoch blk.layerIndex db.layersPerEpoch = ce →
        ∀ id2 ∈ blk.atxIds, ∃ x, getAtx db id2 = .ok x) → c < 2 ^ 32 →
      ∃ seen2 : List Nat,
        visitBlocks db pe ce blocks seen c =
          .ok (seen2,
            (c + (((blockIdsInEpoch db ce blocks).toFinset \
                seen.toFinset).filter
                (fun i => activeP db pe i = true)).card) % 2 ^ 32) ∧
        seen2.toFinset =
          (blockIdsInEpoch db ce blocks).toFinset ∪ seen.toFinset := by
  induction blocks with
  | nil =>
      intro seen c _ hc
      refine ⟨seen, ?_, by simp [blockIdsInEpoch]⟩
      have hK : (((blockIdsInEpoch db ce []).toFinset \
          seen.toFinset).filter
          (fun i => activeP db pe i = true)).card = 0 := by
        simp [blockIdsInEpoch]
      rw [hK, Nat.add_zero, Nat.mod_eq_of_lt hc]
      simp only [visitBlocks]
  | cons blk rest ih =>
      intro seen c H hc
      have Hrest : ∀ b ∈ rest, getEpoch b.layerIndex db.layersPerEpoch = ce →
          ∀ id2 ∈ b.atxIds, ∃ x, getAtx db id2 = .ok x :=
        fun b hb => H b (List.mem_cons_of_mem _ hb)
      by_cases hep : getEpoch blk.layerIndex db.layersPerEpoch = ce
      · have hcond : ¬ (getEpoch blk.layerIndex db.layersPerEpoch ≠ ce) := by
          simp [hep]
        obtain ⟨seenA, hA1, hA2⟩ := visitIds_spec db pe blk.atxIds seen c
          (fun x2 hx2 => H blk (List.mem_cons_self _ _) hep x2 hx2) hc
        have hcA : (c + ((blk.atxIds.toFinset \ seen.toFinset).filter
            (fun i => activeP db pe i = true)).card) % 2 ^ 32 < 2 ^ 32 :=
          Nat.mod_lt _ (by norm_num)
        obtain ⟨seenB, hB1, hB2⟩ := ih seenA _ Hrest hcA
        have hids : blockIdsInEpoch db ce (blk :: rest) =
            blk.atxIds ++ blockIdsInEpoch db ce rest := by
          simp [blockIdsInEpoch, hep]
        refine ⟨seenB, ?_, ?_⟩
        · simp only [visitBlocks, if_neg hcond, hA1]
          rw [hB1, hA2, hids, List.toFinset_append,
            card_filter_union_sdiff, Nat.mod_add_mod]
          have harith : ∀ kA kB : Nat, c + kA + kB = c + (kA + kB) := by
            omega
          rw [harith]
        · rw [hB2, hA2, hids, List.toFinset_append]
          ext y
          simp only [Finset.mem_union]
          tauto
      · obtain ⟨seen2, h1, h2⟩ := ih seen c Hrest hc
        have hids : blockIdsInEpoch db ce (blk :: rest) =
            blockIdsInEpoch db ce rest := by
          simp [blockIdsInEpoch, hep]
        refine ⟨seen2, ?_, ?_⟩
        · simp only [visitBlocks, if_pos hep]
          rw [h1, hids]
        · rw [h2, hids]

/-- C3 amended: a cache hit returns the cached value unchanged — whatever
the publication epoch; on a cache miss the computation fails for a genesis
publication epoch and otherwise (when every referenced ATX resolves)
returns the number of distinct ATX ids referenced by counting-epoch
blocks whose target epoch is the publication epoch. -/
theorem calcActiveSetCacheRules :
    (∀ (db : ActivationDb) (a : ActivationTx) (c : Nat),
        db.activesetCache a.view = some c →
        CalcActiveSetFromView db a = .ok (c, db)) ∧
    (∀ (db : ActivationDb) (a : ActivationTx),
        db.activesetCache a.view = none →
        getEpoch a.pubLayerIdx db.layersPerEpoch = 0 →
        CalcActiveSetFromView db a = .error .genesisActiveSetUndefined) ∧
    (∀ (db : ActivationDb) (a : ActivationTx),
        db.activesetCache a.view = none →
        1 ≤ getEpoch a.pubLayerIdx db.layersPerEpoch →
        (∀ blk ∈ db.meshBlocks a.view
            ((getEpoch a.pubLayerIdx db.layersPerEpoch - 1) *
              db.layersPerEpoch),
          getEpoch blk.layerIndex db.layersPerEpoch =
            getEpoch a.pubLayerIdx db.layersPerEpoch - 1 →
          ∀ id2 ∈ blk.atxIds, ∃ x, getAtx db id2 = .ok x) →
        calcResultCount (CalcActiveSetFromView db a) =
          some (specDistinctActiveCount db a % 2 ^ 32)) := by
  refine ⟨?_, ?_, ?_⟩
  · intro db a c hcache
    unfold CalcActiveSetFromView
    rw [hcache]
  · intro db a hcache h0
    unfold CalcActiveSetFromView
    rw [hcache]
    simp [h0]
  · intro db a hcache h1 H
    obtain ⟨seen2, hv, _⟩ := visitBlocks_spec db
      (getEpoch a.pubLayerIdx db.layersPerEpoch)
      (getEpoch a.pubLayerIdx db.layersPerEpoch - 1)
      (db.meshBlocks a.view
        ((getEpoch a.pubLayerIdx db.layersPerEpoch - 1) *
          db.layersPerEpoch))
      [] 0 H (by norm_num)
    unfold CalcActiveSetFromView
    rw [hcache]
    have hnl : ¬ getEpoch a.pubLayerIdx db.layersPerEpoch < 1 := by omega
    simp only [if_neg hnl]
    rw [hv]
    simp [calcResultCount, specDistinctActiveCount]

/-- C3 counterexample: `atxC3genesis` is published in epoch 0; with a cold
cache `CalcActiveSetFromView` fails on it, but after a legitimate earlier
recount of the same view for an epoch-1 ATX populated the cache, the very
same genesis call returns the cached count 1 — the genesis failure and
the recount are both bypassed by the cache hit. -/
theorem calcActiveSetGenesisCounterexample :
    getEpoch atxC3genesis.pubLayerIdx exDbC3.layersPerEpoch = 0 ∧
    calcResultCount (CalcActiveSetFromView exDbC3 atxC3genesis) = none ∧
    calcResultCount (CalcActiveSetFromView exDbC3 atxC3epoch1) = some 1 ∧
    calcResultCount (CalcActiveSetFromView exDbC3cached atxC3genesis) =
      some 1 := ⟨rfl, rfl, rfl, rfl⟩

/-- C3 witness: the cache hit on the populated C3 state returns the cached
count without touching the state. -/
theorem calcActiveSetCacheRules_witness :
    CalcActiveSetFromView exDbC3cached atxC3genesis =
      .ok (1, exDbC3cached) :=
  calcActiveSetCacheRules.1 exDbC3cached atxC3genesis 1 rfl

end Activation
